import Mathlib

/-
  Verification of the distribution/redistribution engine of the Elemental
  library, shallowly embedded from src/src/core/DistMatrix/General.cpp and
  the surrounding headers.  Machine integers are modelled by Nat (all of the
  index arithmetic operates on validated non-negative quantities well below
  any overflow boundary); matrix entries are modelled by Int.
-/

-- #############################################################
-- Index arithmetic: Shift_ and Length_
-- #############################################################

/-- Modelled from the spec: the function `Shift_` itself is not under src
(only its callers, e.g. the pack loop of `GeneralDistMatrix::SumScatterUpdate`,
are).  Spec 4.1: `Shift(rank, align, stride) = (rank − align + stride) mod
stride` — the local starting offset for a given axis.  The Nat form
`(rank + stride − align) % stride` is identical for `align ≤ stride`, the
validated range. -/
def Shift_ (rank align stride : ℕ) : ℕ := (rank + stride - align) % stride

/-- Modelled from the spec: the function `Length_` itself is not under src
(only its callers are).  Spec 4.1: `Length(globalExtent, shift, stride) =
ceil((globalExtent − shift) / stride)`, floored at 0 — the number of local
elements along the axis.  The Nat form `(n − shift + stride − 1) / stride`
realises both the ceiling and the floor at 0 (truncated subtraction). -/
def Length_ (n shift stride : ℕ) : ℕ := (n - shift + stride - 1) / stride

-- Supporting lemmas about Shift_ and Length_
-- ------------------------------------------

/-- A global index `x` below the extent lands strictly inside the local
range of the rank whose shift is `x % s`. -/
theorem div_lt_Length {s n x : ℕ} (hs : 0 < s) (hx : x < n) :
    x / s < Length_ n (x % s) s := by
  obtain ⟨m, hm, d, rfl⟩ : ∃ m, m < s ∧ ∃ d, x = m + d * s :=
    ⟨x % s, Nat.mod_lt _ hs, x / s, (Nat.mod_add_div' x s).symm⟩
  rw [Nat.add_mul_mod_self_right, Nat.mod_eq_of_lt hm,
      Nat.add_mul_div_right _ _ hs, Nat.div_eq_of_lt hm, zero_add]
  unfold Length_
  rw [Nat.lt_iff_add_one_le, Nat.le_div_iff_mul_le hs, add_mul, one_mul]
  set D := d * s with hD
  omega

/-- Conversely, every local index below `Length_` addresses a global index
below the extent. -/
theorem add_mul_lt_of_lt_Length {s L σ k : ℕ} (hs : 0 < s)
    (hk : k < Length_ L σ s) : σ + k * s < L := by
  unfold Length_ at hk
  rw [Nat.lt_iff_add_one_le, Nat.le_div_iff_mul_le hs, add_mul, one_mul] at hk
  set D := k * s with hD
  omega

/-- The rank `(x + a) % s` has shift exactly `x % s`: this is the modular
inverse relation between ranks and shifts used throughout the pack loops. -/
theorem Shift_owner {s : ℕ} (hs : 0 < s) {a : ℕ} (ha : a < s) (x : ℕ) :
    Shift_ ((x + a) % s) a s = x % s := by
  unfold Shift_
  rw [Nat.add_sub_assoc (le_of_lt ha), Nat.mod_add_mod, add_assoc,
      Nat.add_sub_cancel' (le_of_lt ha), Nat.add_mod_right]

/-- `Shift_` is injective on ranks `< s` for a fixed alignment. -/
theorem Shift_inj {s : ℕ} (hs : 0 < s) {a k k' : ℕ} (ha : a < s)
    (hk : k < s) (hk' : k' < s)
    (heq : Shift_ k a s = Shift_ k' a s) : k = k' := by
  unfold Shift_ at heq
  rw [Nat.add_sub_assoc (le_of_lt ha), Nat.add_sub_assoc (le_of_lt ha)] at heq
  have h2 : k ≡ k' [MOD s] := Nat.ModEq.add_right_cancel' _ heq
  unfold Nat.ModEq at h2
  rw [Nat.mod_eq_of_lt hk, Nat.mod_eq_of_lt hk'] at h2
  exact h2

/-- `Length_ n σ s` counts exactly the global indices below `n` whose
residue modulo the stride is `σ`. -/
theorem Length_eq_card {n s σ : ℕ} (hs : 0 < s) (hσ : σ < s) :
    Length_ n σ s = ((Finset.range n).filter (fun i => i % s = σ)).card := by
  rw [← Finset.card_range (Length_ n σ s)]
  apply Finset.card_bij (fun k _ => σ + k * s)
  · intro k hk
    rw [Finset.mem_range] at hk
    rw [Finset.mem_filter, Finset.mem_range]
    refine ⟨add_mul_lt_of_lt_Length hs hk, ?_⟩
    rw [Nat.add_mul_mod_self_right, Nat.mod_eq_of_lt hσ]
  · intro k _ k' _ h
    exact Nat.eq_of_mul_eq_mul_right hs (Nat.add_left_cancel h)
  · intro i hi
    rw [Finset.mem_filter, Finset.mem_range] at hi
    refine ⟨i / s, ?_, ?_⟩
    · rw [Finset.mem_range]
      have h3 := div_lt_Length hs hi.1
      rwa [hi.2] at h3
    · rw [← hi.2]
      exact Nat.mod_add_div' i s

-- #############################################################
-- C2: the Length_ values over all shifts partition the extent
-- #############################################################

/-- Claim C2: for every global extent `n ≥ 0` and stride `s ≥ 1`, the sum of
`Length_ n shift s` over `shift = 0..s−1` is exactly `n`, and every global
index below `n` is counted by exactly one shift (no index is owned by zero
shifts or by more than one shift). -/
theorem Length_partition (n s : ℕ) (hs : 0 < s) :
    (∑ σ in Finset.range s, Length_ n σ s) = n ∧
    ∀ i, i < n → ∃! σ, σ < s ∧ ∃ k, i = σ + k * s := by
  constructor
  · have h1 : (Finset.range n).card =
        ∑ σ in Finset.range s,
          ((Finset.range n).filter (fun i => i % s = σ)).card :=
      Finset.card_eq_sum_card_fiberwise (fun i _ => by
        rw [Finset.mem_range]; exact Nat.mod_lt _ hs)
    rw [Finset.card_range] at h1
    rw [Finset.sum_congr rfl
      (fun σ hσ => Length_eq_card hs (Finset.mem_range.mp hσ))]
    exact h1.symm
  · intro i _
    refine ⟨i % s, ⟨Nat.mod_lt _ hs, i / s, (Nat.mod_add_div' i s).symm⟩, ?_⟩
    rintro σ ⟨hσ, k, rfl⟩
    rw [Nat.add_mul_mod_self_right, Nat.mod_eq_of_lt hσ]

/-- Witness for C2 at `n = 7`, `s = 3`. -/
theorem Length_partition_witness :
    0 < 3 ∧ ((∑ σ in Finset.range 3, Length_ 7 σ 3) = 7 ∧
      ∀ i, i < 7 → ∃! σ, σ < 3 ∧ ∃ k, i = σ + k * 3) :=
  ⟨by decide, Length_partition 7 3 (by decide)⟩

-- #############################################################
-- C3: which process owns a global index
-- #############################################################

/-- Grid coordinate `k` owns global index `i` along an axis with alignment
`a` and stride `s` exactly when `i` lies in the residue class whose data is
packed for coordinate `k` in the SumScatterUpdate pack loop
(General.cpp lines 164–177): `i % s = Shift_ k a s`. -/
def OwnsIdx (i a s k : ℕ) : Prop := i % s = Shift_ k a s

instance (i a s k : ℕ) : Decidable (OwnsIdx i a s k) :=
  inferInstanceAs (Decidable (i % s = Shift_ k a s))

/-- The coordinate named by claim C3, `(i − align) mod stride`, written over
Nat as `(i + stride − align) % stride` (identical to the integer formula for
`align < stride`, see `ClaimedOwnerCoord_int`). -/
def ClaimedOwnerCoord (i a s : ℕ) : ℕ := (i + s - a) % s

/-- The Nat encoding of the claimed coordinate agrees with the integer
expression `(i − align) mod stride`. -/
theorem ClaimedOwnerCoord_int (i a s : ℕ) (ha : a ≤ s) :
    (ClaimedOwnerCoord i a s : ℤ) = ((i : ℤ) - a) % s := by
  unfold ClaimedOwnerCoord
  have h1 : ((i + s - a : ℕ) : ℤ) = (i : ℤ) - a + s := by
    have : a ≤ i + s := le_trans ha (Nat.le_add_left s i)
    push_cast [Nat.cast_sub this]
    ring
  rw [Int.natCast_mod, h1]
  simp [Int.add_emod]

/-- An index `i < n` is owned by coordinate `k` precisely when `i` appears
among the entries `Shift_ k a s + loc * s`, `loc < Length_ n (Shift_ k a s) s`,
that the pack loop assigns to `k`. -/
theorem OwnsIdx_iff_packed {n s : ℕ} (hs : 0 < s) (i a k : ℕ) (hi : i < n) :
    OwnsIdx i a s k ↔
      ∃ loc, loc < Length_ n (Shift_ k a s) s ∧ i = Shift_ k a s + loc * s := by
  constructor
  · intro h
    refine ⟨i / s, ?_, ?_⟩
    · have h3 := div_lt_Length hs hi
      rwa [h] at h3
    · conv_lhs => rw [← Nat.mod_add_div' i s]
      rw [h]
  · rintro ⟨loc, _, rfl⟩
    unfold OwnsIdx
    rw [Nat.add_mul_mod_self_right]
    exact Nat.mod_eq_of_lt (Nat.mod_lt _ hs)

/-- Claim C3 counterexample: on a 3×1 grid with `colAlign = 1`, the claimed
coordinate for global index 0 is `(0 − 1) mod 3 = 2`, but that process does
not own index 0 (its shift is 1, while `0 % 3 = 0`); the actual owner is
process 1. -/
theorem ownerFormula_counterexample :
    ClaimedOwnerCoord 0 1 3 = 2 ∧ ¬ OwnsIdx 0 1 3 (ClaimedOwnerCoord 0 1 3) ∧
      OwnsIdx 0 1 3 1 := by decide

/-- Claim C3 (amended): for every grid shape `(r,c)`, every alignment pair in
range and every global `(i,j)`, exactly one process owns `(i,j)`, namely the
process at grid coordinate `((i + colAlign) mod r, (j + rowAlign) mod c)`
(the claim's `(i − colAlign) mod r` corrected to `(i + colAlign) mod r`,
matching `Shift(rank, align, stride) = (rank − align + stride) mod stride`). -/
theorem owner_exists_unique (r c a b i j : ℕ) (hr : 0 < r) (hc : 0 < c)
    (ha : a < r) (hb : b < c) :
    (∃! p : ℕ × ℕ, p.1 < r ∧ p.2 < c ∧ OwnsIdx i a r p.1 ∧ OwnsIdx j b c p.2) ∧
    OwnsIdx i a r ((i + a) % r) ∧ OwnsIdx j b c ((j + b) % c) := by
  have h1 : OwnsIdx i a r ((i + a) % r) := (Shift_owner hr ha i).symm
  have h2 : OwnsIdx j b c ((j + b) % c) := (Shift_owner hc hb j).symm
  refine ⟨⟨((i + a) % r, (j + b) % c),
      ⟨Nat.mod_lt _ hr, Nat.mod_lt _ hc, h1, h2⟩, ?_⟩, h1, h2⟩
  rintro ⟨k, l⟩ ⟨hk, hl, hoi, hoj⟩
  have e1 : k = (i + a) % r :=
    Shift_inj hr ha hk (Nat.mod_lt _ hr) (hoi.symm.trans h1)
  have e2 : l = (j + b) % c :=
    Shift_inj hc hb hl (Nat.mod_lt _ hc) (hoj.symm.trans h2)
  exact Prod.ext e1 e2

/-- Witness for the amended C3 at `r = 3`, `c = 2`, aligns `(1,1)`,
global index `(4,5)`. -/
theorem owner_exists_unique_witness :
    0 < 3 ∧ 0 < 2 ∧ 1 < 3 ∧ 1 < 2 ∧
    ((∃! p : ℕ × ℕ, p.1 < 3 ∧ p.2 < 2 ∧ OwnsIdx 4 1 3 p.1 ∧ OwnsIdx 5 1 2 p.2) ∧
      OwnsIdx 4 1 3 ((4 + 1) % 3) ∧ OwnsIdx 5 1 2 ((5 + 1) % 2)) :=
  ⟨by decide, by decide, by decide, by decide,
    owner_exists_unique 3 2 1 1 4 5 (by decide) (by decide) (by decide) (by decide)⟩

-- #############################################################
-- SumScatterUpdate (General.cpp lines 132-189)
-- #############################################################

/-- The entry the pack loop of `GeneralDistMatrix::SumScatterUpdate` stores,
on any participating process `q`, into the block destined for grid coordinate
`(k,l)` at block-local position `(s,t)`.  General.cpp lines 173-176 call
`InterleaveMatrix( thisLocalHeight, thisLocalWidth,
A.LockedBuffer(thisColShift,thisRowShift), colStride, A.LDim(), data, 1,
thisLocalHeight )`, whose stride arguments are linear element offsets (the
destination side `data, 1, thisLocalHeight` fixes the convention, and
`PartialRowSumScatterUpdate` passes `rowStrideUnion*A.LDim()` when it wants a
multi-column step): packed row `s` is read from `A`'s row
`thisColShift + s*colStride`, and packed column `t` from `A`'s column
`thisRowShift + t` — ONE column per step, not `rowStride` columns.
`thisColShift = Shift_ k colAlign colStride`,
`thisRowShift = Shift_ l rowAlign rowStride`.  Since `A` is fully replicated
(`[UGath,VGath] = [*,*]`), its local buffer is indexed by global indices;
`Arep q i j` is the value process `q`'s replica holds at global `(i,j)`. -/
def packEntry (r c a b : ℕ) (Arep : ℕ → ℕ → ℕ → ℤ) (q k l s t : ℕ) : ℤ :=
  Arep q (Shift_ k a r + s * r) (Shift_ l b c + t)

/-- The block that `mpi::ReduceScatter` delivers to the process at grid
coordinate `(k,l)`: the elementwise sum, over every process `q` of the
`r*c`-member communicator `DistComm`, of the block each `q` packed for
`(k,l)`. -/
def recvEntry (r c a b : ℕ) (Arep : ℕ → ℕ → ℕ → ℤ) (k l s t : ℕ) : ℤ :=
  ∑ q in Finset.range (r * c), packEntry r c a b Arep q k l s t

/-- The local buffer of the process at grid coordinate `(k,l)` after the
unpack phase of `SumScatterUpdate(alpha, A)`: `InterleaveMatrixUpdate` adds
`alpha` times the received block over the `localHeight × localWidth` local
range, where `localHeight = Length_ height colShift colStride` and
`localWidth = Length_ width rowShift rowStride`; entries outside the local
range are untouched. -/
def SumScatterUpdate (r c a b h w : ℕ) (alpha : ℤ) (Arep : ℕ → ℕ → ℕ → ℤ)
    (k l : ℕ) (dest : ℕ → ℕ → ℤ) : ℕ → ℕ → ℤ := fun s t =>
  if s < Length_ h (Shift_ k a r) r ∧ t < Length_ w (Shift_ l b c) c then
    dest s t + alpha * recvEntry r c a b Arep k l s t
  else dest s t

/-- `SumScatterUpdate` with its early-out guard (General.cpp lines 143-144):
a non-participating process returns at once, leaving its local buffer
untouched and issuing no collective call.  The second component counts the
collective communication calls the process issues. -/
def SumScatterUpdateP (participating : Bool) (r c a b h w : ℕ) (alpha : ℤ)
    (Arep : ℕ → ℕ → ℕ → ℤ) (k l : ℕ) (dest : ℕ → ℕ → ℤ) :
    (ℕ → ℕ → ℤ) × ℕ :=
  if participating then (SumScatterUpdate r c a b h w alpha Arep k l dest, 1)
  else (dest, 0)

-- #############################################################
-- PartialRow/PartialColSumScatterUpdate (General.cpp lines 191-326)
-- #############################################################

/-- `GeneralDistMatrix::PartialRowSumScatterUpdate(alpha, A)` as executed by
one process: `cFull` is the destination's `RowStride()`, `cPart = A.RowStride()
= PartialRowStride()`, `cUnion = PartialUnionRowStride()` (so
`cFull = cPart * cUnion`), `p0 = PartialRowRank()`, `u` this process's rank in
`PartialUnionRowComm`, `rowAlignD = this->RowAlign()`, `rowAlignA =
A.RowAlign()`, `rowShiftOfA = A.RowShift()`.  `ALoc q s t'` is the local
buffer of the union-communicator member `q` (all of whom share `p0` and hence
`rowShiftOfA`).  Result: the new local buffer, the number of collective calls
issued, and the raised `LogicError`, if any.  The code reproduced: early-out
when not participating; if `RowAlign() % A.RowStride() == A.RowAlign()`, pack
block `k` from `A.LockedBuffer(0, thisRowOffset)` with column step
`rowStrideUnion`, reduce-scatter over `PartialUnionRowComm`, and add
`alpha` times the received block over `height × localWidth`; otherwise raise
`LogicError("Unaligned PartialRowSumScatterUpdate not implemented")` before
any write or communication. -/
def PartialRowSumScatterUpdate (participating : Bool)
    (cFull cPart cUnion p0 u rowAlignD rowAlignA rowShiftOfA h w : ℕ)
    (alpha : ℤ) (ALoc : ℕ → ℕ → ℕ → ℤ) (dest : ℕ → ℕ → ℤ) :
    (ℕ → ℕ → ℤ) × ℕ × Option String :=
  if participating = false then (dest, 0, none)
  else if rowAlignD % cPart = rowAlignA then
    (fun s t =>
      if s < h ∧ t < Length_ w (Shift_ (p0 + u * cPart) rowAlignD cFull) cFull
      then
        dest s t + alpha * ∑ q in Finset.range cUnion,
          ALoc q s ((Shift_ (p0 + u * cPart) rowAlignD cFull - rowShiftOfA)
            / cPart + t * cUnion)
      else dest s t,
     1, none)
  else (dest, 0, some "Unaligned PartialRowSumScatterUpdate not implemented")

/-- `GeneralDistMatrix::PartialColSumScatterUpdate(alpha, A)`, the column
analogue of `PartialRowSumScatterUpdate`: `rFull = ColStride()`,
`rPart = A.ColStride()`, `rUnion = PartialUnionColStride()`,
`q0 = PartialColRank()`, `u` this process's `PartialUnionColComm` rank. -/
def PartialColSumScatterUpdate (participating : Bool)
    (rFull rPart rUnion q0 u colAlignD colAlignA colShiftOfA h w : ℕ)
    (alpha : ℤ) (ALoc : ℕ → ℕ → ℕ → ℤ) (dest : ℕ → ℕ → ℤ) :
    (ℕ → ℕ → ℤ) × ℕ × Option String :=
  if participating = false then (dest, 0, none)
  else if colAlignD % rPart = colAlignA then
    (fun s t =>
      if s < Length_ h (Shift_ (q0 + u * rPart) colAlignD rFull) rFull ∧ t < w
      then
        dest s t + alpha * ∑ q in Finset.range rUnion,
          ALoc q ((Shift_ (q0 + u * rPart) colAlignD rFull - colShiftOfA)
            / rPart + s * rUnion) t
      else dest s t,
     1, none)
  else (dest, 0, some "Unaligned PartialColSumScatterUpdate not implemented")

-- #############################################################
-- C1: SumScatterUpdate packs the wrong source columns
-- #############################################################

/-- Claim C1 (code bug): the claimed elementwise correctness fails on the
given source.  On a 1×2 grid (colStride 1, rowStride 2), zero alignments, a
1×3 fully replicated source with replica values `A q i j = j`, a zero
destination and `alpha = 1`: destination process (0,0) owns global columns
0 and 2, but its local column 1 — global column 2 — receives the reduced
sum of the replicas' column 1 (value `2 = 1 · Σ_q 1`), not of their column 2
(value `4 = 1 · Σ_q 2`) as the contract demands.  The pack loop's column
step is `A.LDim()` — one column of `A` — where the algorithm needs
`rowStride*A.LDim()`, the convention the Partial variants in the same file
use (`rowStrideUnion*A.LDim()` at General.cpp line 235). -/
theorem SumScatterUpdate_columnStep_bug :
    SumScatterUpdate 1 2 0 0 1 3 1 (fun _ _ j => (j : ℤ)) 0 0
        (fun _ _ => 0) 0 1 = 2 ∧
    (0 : ℤ) + 1 * (∑ q in Finset.range (1 * 2),
        (fun (_ _ j : ℕ) => (j : ℤ)) q 0 2) = 4 ∧
    (2 : ℤ) ≠ 4 := by decide

-- #############################################################
-- C4: the unaligned partial reduce-scatter cases are rejected
-- #############################################################

/-- Claim C4: for `PartialRowSumScatterUpdate` and
`PartialColSumScatterUpdate`, if the destination's alignment modulo the
source's stride does not equal the source's alignment, the operation raises
the fatal `LogicError` and never silently produces wrong data: the local
buffer is returned unchanged and no collective call is issued. -/
theorem PartialSumScatterUpdate_unaligned_rejected
    (cFull cPart cUnion p0 u rowAlignD rowAlignA rowShiftOfA : ℕ)
    (rFull rPart rUnion q0 v colAlignD colAlignA colShiftOfA : ℕ)
    (h w : ℕ) (alpha : ℤ) (ALoc BLoc : ℕ → ℕ → ℕ → ℤ)
    (destR destC : ℕ → ℕ → ℤ)
    (hrow : rowAlignD % cPart ≠ rowAlignA)
    (hcol : colAlignD % rPart ≠ colAlignA) :
    PartialRowSumScatterUpdate true cFull cPart cUnion p0 u rowAlignD
        rowAlignA rowShiftOfA h w alpha ALoc destR
      = (destR, 0, some "Unaligned PartialRowSumScatterUpdate not implemented")
    ∧
    PartialColSumScatterUpdate true rFull rPart rUnion q0 v colAlignD
        colAlignA colShiftOfA h w alpha BLoc destC
      = (destC, 0,
          some "Unaligned PartialColSumScatterUpdate not implemented") := by
  constructor
  · unfold PartialRowSumScatterUpdate
    rw [if_neg (by simp), if_neg hrow]
  · unfold PartialColSumScatterUpdate
    rw [if_neg (by simp), if_neg hcol]

/-- Witness for C4 with destination alignment 1, partial stride 2, source
alignment 0 on both axes. -/
theorem PartialSumScatterUpdate_unaligned_rejected_witness :
    (1 % 2 ≠ 0) ∧ (1 % 2 ≠ 0) ∧
    (PartialRowSumScatterUpdate true 4 2 2 0 0 1 0 0 3 3 5
        (fun _ _ _ => 2) (fun _ _ => 9)
      = ((fun _ _ => 9), 0,
          some "Unaligned PartialRowSumScatterUpdate not implemented")
    ∧
    PartialColSumScatterUpdate true 4 2 2 0 0 1 0 0 3 3 5
        (fun _ _ _ => 2) (fun _ _ => 9)
      = ((fun _ _ => 9), 0,
          some "Unaligned PartialColSumScatterUpdate not implemented")) :=
  ⟨by decide, by decide,
    PartialSumScatterUpdate_unaligned_rejected 4 2 2 0 0 1 0 0 4 2 2 0 0 1 0 0
      3 3 5 (fun _ _ _ => 2) (fun _ _ _ => 2) (fun _ _ => 9) (fun _ _ => 9)
      (by decide) (by decide)⟩

-- #############################################################
-- C9: non-participating processes return immediately
-- #############################################################

/-- Claim C9: a process with `Participating() = false` returns immediately
from `SumScatterUpdate`, `PartialRowSumScatterUpdate` and
`PartialColSumScatterUpdate`: the local buffer is unchanged, no collective
communication is issued, and no error is raised. -/
theorem notParticipating_frame (r c a b h w : ℕ) (alpha : ℤ)
    (Arep ALoc BLoc : ℕ → ℕ → ℕ → ℤ) (k l : ℕ) (dest destR destC : ℕ → ℕ → ℤ)
    (cFull cPart cUnion p0 u rowAlignD rowAlignA rowShiftOfA : ℕ)
    (rFull rPart rUnion q0 v colAlignD colAlignA colShiftOfA : ℕ) :
    SumScatterUpdateP false r c a b h w alpha Arep k l dest = (dest, 0) ∧
    PartialRowSumScatterUpdate false cFull cPart cUnion p0 u rowAlignD
        rowAlignA rowShiftOfA h w alpha ALoc destR = (destR, 0, none) ∧
    PartialColSumScatterUpdate false rFull rPart rUnion q0 v colAlignD
        colAlignA colShiftOfA h w alpha BLoc destC = (destC, 0, none) := by
  refine ⟨?_, ?_, ?_⟩
  · unfold SumScatterUpdateP
    rw [if_neg (by simp)]
  · unfold PartialRowSumScatterUpdate
    rw [if_pos rfl]
  · unfold PartialColSumScatterUpdate
    rw [if_pos rfl]

-- #############################################################
-- AlignColsWith / AlignRowsWith (General.cpp lines 41-81)
-- #############################################################

/-- The closed set of distribution kinds (`include/El/core/types` relative;
only the enumeration is needed here: the template constants `U`, `UPart`,
`UScat`, `UGath` of `GeneralDistMatrix<T,U,V>` are passed as parameters just
as the C++ instantiates them per type). -/
inductive ElDist
  | MC | MD | MR | VC | VR | STAR | CIRC
deriving DecidableEq

/-- `El::DistData`: the distribution descriptor a matrix is aligned with. -/
structure DistData where
  colDist : ElDist
  rowDist : ElDist
  colAlign : ℕ
  rowAlign : ℕ
  root : ℕ
  grid : ℕ

/-- The column-axis metadata of an `AbstractDistMatrix` that
`AlignColsWith` can touch: grid (by identifier), root, column alignment and
its constrained flag. -/
structure ColState where
  grid : ℕ
  root : ℕ
  colAlign : ℕ
  colConstrained : Bool
deriving DecidableEq

/-- Modelled from the spec: `AbstractDistMatrix::AlignCols` is not under src;
per spec 4.2 the matrix adopts the given column alignment, recording the
constraint when requested. -/
def AlignCols (align : ℕ) (constrain : Bool) (st : ColState) : ColState :=
  { st with colAlign := align,
            colConstrained := st.colConstrained || constrain }

/-- `GeneralDistMatrix::AlignColsWith(data, constrain, allowMismatch)`
(General.cpp lines 41-60), executed sequentially as the C++ does: first
`SetGrid(*data.grid)` and `SetRoot(data.root)` (modelled from the spec as
adopting the descriptor's grid and root), then the compatibility chain.  The
result pairs the state at exit with the raised `LogicError`, if any; as with
a C++ exception, mutations made before the throw are kept. -/
def AlignColsWith (U UPart UScat UGath : ElDist) (colStride : ℕ)
    (d : DistData) (constrain allowMismatch : Bool) (st : ColState) :
    ColState × Option String :=
  let st1 : ColState := { st with grid := d.grid, root := d.root }
  if d.colDist = U ∨ d.colDist = UPart then
    (AlignCols d.colAlign constrain st1, none)
  else if d.rowDist = U ∨ d.rowDist = UPart then
    (AlignCols d.rowAlign constrain st1, none)
  else if d.colDist = UScat then
    (AlignCols (d.colAlign % colStride) constrain st1, none)
  else if d.rowDist = UScat then
    (AlignCols (d.rowAlign % colStride) constrain st1, none)
  else if U ≠ UGath ∧ d.colDist ≠ UGath ∧ d.rowDist ≠ UGath ∧
      allowMismatch = false then
    (st1, some "Nonsensical alignment")
  else (st1, none)

/-- The row-axis metadata `AlignRowsWith` can touch. -/
structure RowState where
  grid : ℕ
  root : ℕ
  rowAlign : ℕ
  rowConstrained : Bool
deriving DecidableEq

/-- Modelled from the spec: `AbstractDistMatrix::AlignRows`, the row analogue
of `AlignCols`. -/
def AlignRows (align : ℕ) (constrain : Bool) (st : RowState) : RowState :=
  { st with rowAlign := align,
            rowConstrained := st.rowConstrained || constrain }

/-- `GeneralDistMatrix::AlignRowsWith(data, constrain, allowMismatch)`
(General.cpp lines 62-81), with the template constants `V`, `VPart`, `VScat`,
`VGath` passed as parameters and `rowStride = this->RowStride()`. -/
def AlignRowsWith (V VPart VScat VGath : ElDist) (rowStride : ℕ)
    (d : DistData) (constrain allowMismatch : Bool) (st : RowState) :
    RowState × Option String :=
  let st1 : RowState := { st with grid := d.grid, root := d.root }
  if d.colDist = V ∨ d.colDist = VPart then
    (AlignRows d.colAlign constrain st1, none)
  else if d.rowDist = V ∨ d.rowDist = VPart then
    (AlignRows d.rowAlign constrain st1, none)
  else if d.colDist = VScat then
    (AlignRows (d.colAlign % rowStride) constrain st1, none)
  else if d.rowDist = VScat then
    (AlignRows (d.rowAlign % rowStride) constrain st1, none)
  else if V ≠ VGath ∧ d.colDist ≠ VGath ∧ d.rowDist ≠ VGath ∧
      allowMismatch = false then
    (st1, some "Nonsensical alignment")
  else (st1, none)

-- #############################################################
-- C5: the alignment-adoption case analysis
-- #############################################################

/-- Claim C5: for every call to `AlignColsWith`/`AlignRowsWith` with a
descriptor: the matrix adopts the alignment of the descriptor's compatible
axis — an exact kind match or a partial relative takes that axis's alignment
(column axis first), a scattered relative takes the alignment reduced modulo
the matrix's stride; a replicated (`UGath`) axis imposes no alignment
constraint and raises no error; and if no compatible axis exists and
`allowMismatch` is false, the call fails with the logic error
"Nonsensical alignment".  The first six conjuncts cover every case of
`AlignColsWith`; the remaining six cover every case of `AlignRowsWith`
(exact/partial match on either axis, both scattered relatives reduced
modulo the row stride, the replicated no-op, and the error). -/
theorem AlignColsWith_cases (U UPart UScat UGath : ElDist) (colStride : ℕ)
    (d : DistData) (constrain allowMismatch : Bool) (st : ColState)
    (V VPart VScat VGath : ElDist) (rowStride : ℕ) (str : RowState) :
    ((d.colDist = U ∨ d.colDist = UPart) →
      AlignColsWith U UPart UScat UGath colStride d constrain allowMismatch st
        = (AlignCols d.colAlign constrain
            { st with grid := d.grid, root := d.root }, none)) ∧
    (¬(d.colDist = U ∨ d.colDist = UPart) → (d.rowDist = U ∨ d.rowDist = UPart) →
      AlignColsWith U UPart UScat UGath colStride d constrain allowMismatch st
        = (AlignCols d.rowAlign constrain
            { st with grid := d.grid, root := d.root }, none)) ∧
    (¬(d.colDist = U ∨ d.colDist = UPart) → ¬(d.rowDist = U ∨ d.rowDist = UPart) →
      d.colDist = UScat →
      AlignColsWith U UPart UScat UGath colStride d constrain allowMismatch st
        = (AlignCols (d.colAlign % colStride) constrain
            { st with grid := d.grid, root := d.root }, none)) ∧
    (¬(d.colDist = U ∨ d.colDist = UPart) → ¬(d.rowDist = U ∨ d.rowDist = UPart) →
      d.colDist ≠ UScat → d.rowDist = UScat →
      AlignColsWith U UPart UScat UGath colStride d constrain allowMismatch st
        = (AlignCols (d.rowAlign % colStride) constrain
            { st with grid := d.grid, root := d.root }, none)) ∧
    (¬(d.colDist = U ∨ d.colDist = UPart) → ¬(d.rowDist = U ∨ d.rowDist = UPart) →
      d.colDist ≠ UScat → d.rowDist ≠ UScat →
      (U = UGath ∨ d.colDist = UGath ∨ d.rowDist = UGath) →
      AlignColsWith U UPart UScat UGath colStride d constrain allowMismatch st
        = ({ st with grid := d.grid, root := d.root }, none)) ∧
    (¬(d.colDist = U ∨ d.colDist = UPart) → ¬(d.rowDist = U ∨ d.rowDist = UPart) →
      d.colDist ≠ UScat → d.rowDist ≠ UScat →
      U ≠ UGath → d.colDist ≠ UGath → d.rowDist ≠ UGath →
      allowMismatch = false →
      AlignColsWith U UPart UScat UGath colStride d constrain allowMismatch st
        = ({ st with grid := d.grid, root := d.root },
            some "Nonsensical alignment")) ∧
    ((d.colDist = V ∨ d.colDist = VPart) →
      AlignRowsWith V VPart VScat VGath rowStride d constrain allowMismatch str
        = (AlignRows d.colAlign constrain
            { str with grid := d.grid, root := d.root }, none)) ∧
    (¬(d.colDist = V ∨ d.colDist = VPart) → ¬(d.rowDist = V ∨ d.rowDist = VPart) →
      d.colDist ≠ VScat → d.rowDist ≠ VScat →
      (V = VGath ∨ d.colDist = VGath ∨ d.rowDist = VGath) →
      AlignRowsWith V VPart VScat VGath rowStride d constrain allowMismatch str
        = ({ str with grid := d.grid, root := d.root }, none)) ∧
    (¬(d.colDist = V ∨ d.colDist = VPart) → ¬(d.rowDist = V ∨ d.rowDist = VPart) →
      d.colDist ≠ VScat → d.rowDist ≠ VScat →
      V ≠ VGath → d.colDist ≠ VGath → d.rowDist ≠ VGath →
      allowMismatch = false →
      AlignRowsWith V VPart VScat VGath rowStride d constrain allowMismatch str
        = ({ str with grid := d.grid, root := d.root },
            some "Nonsensical alignment")) ∧
    (¬(d.colDist = V ∨ d.colDist = VPart) → (d.rowDist = V ∨ d.rowDist = VPart) →
      AlignRowsWith V VPart VScat VGath rowStride d constrain allowMismatch str
        = (AlignRows d.rowAlign constrain
            { str with grid := d.grid, root := d.root }, none)) ∧
    (¬(d.colDist = V ∨ d.colDist = VPart) → ¬(d.rowDist = V ∨ d.rowDist = VPart) →
      d.colDist = VScat →
      AlignRowsWith V VPart VScat VGath rowStride d constrain allowMismatch str
        = (AlignRows (d.colAlign % rowStride) constrain
            { str with grid := d.grid, root := d.root }, none)) ∧
    (¬(d.colDist = V ∨ d.colDist = VPart) → ¬(d.rowDist = V ∨ d.rowDist = VPart) →
      d.colDist ≠ VScat → d.rowDist = VScat →
      AlignRowsWith V VPart VScat VGath rowStride d constrain allowMismatch str
        = (AlignRows (d.rowAlign % rowStride) constrain
            { str with grid := d.grid, root := d.root }, none)) := by
  unfold AlignColsWith AlignRowsWith
  refine ⟨?_, ?_, ?_, ?_, ?_, ?_, ?_, ?_, ?_, ?_, ?_, ?_⟩
  · intro h1
    rw [if_pos h1]
  · intro h1 h2
    rw [if_neg h1, if_pos h2]
  · intro h1 h2 h3
    rw [if_neg h1, if_neg h2, if_pos h3]
  · intro h1 h2 h3 h4
    rw [if_neg h1, if_neg h2, if_neg h3, if_pos h4]
  · intro h1 h2 h3 h4 h5
    rw [if_neg h1, if_neg h2, if_neg h3, if_neg h4, if_neg (by tauto)]
  · intro h1 h2 h3 h4 h5 h6 h7 h8
    rw [if_neg h1, if_neg h2, if_neg h3, if_neg h4, if_pos ⟨h5, h6, h7, h8⟩]
  · intro h1
    rw [if_pos h1]
  · intro h1 h2 h3 h4 h5
    rw [if_neg h1, if_neg h2, if_neg h3, if_neg h4, if_neg (by tauto)]
  · intro h1 h2 h3 h4 h5 h6 h7 h8
    rw [if_neg h1, if_neg h2, if_neg h3, if_neg h4, if_pos ⟨h5, h6, h7, h8⟩]
  · intro h1 h2
    rw [if_neg h1, if_pos h2]
  · intro h1 h2 h3
    rw [if_neg h1, if_neg h2, if_pos h3]
  · intro h1 h2 h3 h4
    rw [if_neg h1, if_neg h2, if_neg h3, if_pos h4]

/-- Witness for C5: instantiate for `U = MC`, `UPart = MC`, `UScat = VC`,
`UGath = STAR` (the `[MC,MR]` column axis) with a `[MC,MR]` descriptor, and
the row side for `V = MR`, `VPart = MR`, `VScat = VR`, `VGath = STAR`;
the first clause fires, the others hold vacuously or by computation. -/
theorem AlignColsWith_cases_witness :
    (ElDist.MC = ElDist.MC ∨ ElDist.MC = ElDist.MC) ∧
    (AlignColsWith ElDist.MC ElDist.MC ElDist.VC ElDist.STAR 2
        ⟨ElDist.MC, ElDist.MR, 1, 0, 4, 9⟩ true false ⟨0, 0, 0, false⟩
      = (AlignCols 1 true ⟨9, 4, 0, false⟩, none)) := by
  have h := (AlignColsWith_cases ElDist.MC ElDist.MC ElDist.VC ElDist.STAR 2
    ⟨ElDist.MC, ElDist.MR, 1, 0, 4, 9⟩ true false ⟨0, 0, 0, false⟩
    ElDist.MR ElDist.MR ElDist.VR ElDist.STAR 3 ⟨0, 0, 0, false⟩).1
  exact ⟨Or.inl rfl, h (Or.inl rfl)⟩

-- #############################################################
-- C6: are all checks really before all writes?
-- #############################################################

/-- Claim C6 counterexample: `AlignColsWith` performs `SetGrid` and `SetRoot`
before its compatibility check, so a call that fails with "Nonsensical
alignment" has already overwritten the grid and root: with descriptor grid 7
and root 5 against a state with grid 0 and root 0 (and no compatible axis,
`allowMismatch = false`), the call errors yet the returned state's root is 5,
not the original 0 — the destination is not "exactly as before the call". -/
theorem AlignColsWith_mutates_before_check :
    (AlignColsWith ElDist.MC ElDist.MC ElDist.VC ElDist.STAR 2
        ⟨ElDist.MR, ElDist.MR, 1, 1, 5, 7⟩ false false ⟨0, 0, 3, false⟩).2
      = some "Nonsensical alignment" ∧
    (AlignColsWith ElDist.MC ElDist.MC ElDist.VC ElDist.STAR 2
        ⟨ElDist.MR, ElDist.MR, 1, 1, 5, 7⟩ false false ⟨0, 0, 3, false⟩).1.root
      ≠ (ColState.mk 0 0 3 false).root ∧
    (AlignColsWith ElDist.MC ElDist.MC ElDist.VC ElDist.STAR 2
        ⟨ElDist.MR, ElDist.MR, 1, 1, 5, 7⟩ false false ⟨0, 0, 3, false⟩).1.grid
      ≠ (ColState.mk 0 0 3 false).grid := by decide

/-- Modelled from the spec: `Resize` is not under src.  Per spec 4.2 it
reallocates the Local Matrix and is invalid on a non-owning view — the
precondition violation is signalled before the buffer is touched.  The
reallocated contents are unspecified and passed in as `resized`. -/
def Resize (viewing : Bool) (resized buf : ℕ → ℕ → ℤ) :
    (ℕ → ℕ → ℤ) × Option String :=
  if viewing then (buf, some "Cannot resize a view") else (resized, none)

/-- `GeneralDistMatrix::PartialRowSumScatterFrom(A)` (General.cpp 98-113),
in a debug build: `AssertSameGrids(*this, A)` runs first (modelled from the
spec: operating on matrices from different grids is a precondition
violation, spec 5; grids are compared by identifier); then
`AlignAndResize(A.ColAlign(), A.RowAlign(), A.Height(), A.Width(), false,
false)` adopts `A`'s row alignment unless the destination's is constrained
(modelled from the spec — `AlignAndResize` is not under src) and reallocates
the destination, `Zeros(this->Matrix(), ...)` overwrites the local buffer
with zeros, and `this->PartialRowSumScatterUpdate(1, A)` runs — so the
inner unaligned check fires only after the destination has already been
resized and zeroed. -/
def PartialRowSumScatterFrom (gridThis gridA : ℕ) (participating : Bool)
    (cFull cPart cUnion p0 u : ℕ) (rowConstrained : Bool)
    (rowAlignD rowAlignA rowShiftOfA h w : ℕ) (ALoc : ℕ → ℕ → ℕ → ℤ)
    (dest : ℕ → ℕ → ℤ) : (ℕ → ℕ → ℤ) × ℕ × Option String :=
  if gridThis ≠ gridA then (dest, 0, some "Grids did not match")
  else
    PartialRowSumScatterUpdate participating cFull cPart cUnion p0 u
      (if rowConstrained then rowAlignD else rowAlignA) rowAlignA rowShiftOfA
      h w 1 ALoc (fun _ _ => 0)

/-- Claim C6 (amended): precondition violations are reported immediately
with a fatal error, and for the different-grids assertion (run on entry in
debug builds), for resizing a view, and for the unaligned checks of the
reduce-scatter *update* operations, every check precedes every write: on
those failures the destination's local buffer is exactly as before the call
and no collective was issued.  However, not every operation checks before
writing: `AlignColsWith` and `AlignRowsWith` adopt the descriptor's grid and
root *before* their compatibility check, so on a "Nonsensical alignment"
failure the grid and root have already been updated (only the alignment and
its constraint flag are as before); and `PartialRowSumScatterFrom` aligns,
resizes and zeroes the destination before its inner unaligned check fires,
so that failure leaves the old local contents already destroyed. -/
theorem checks_before_writes_amended
    (gridThis gridA : ℕ) (rc : Bool)
    (cFull cPart cUnion p0 u rowAlignD rowAlignA rowShiftOfA : ℕ)
    (rFull rPart rUnion q0 v colAlignD colAlignA colShiftOfA : ℕ)
    (h w : ℕ) (alpha : ℤ) (ALoc BLoc : ℕ → ℕ → ℕ → ℤ)
    (destR destC resized buf : ℕ → ℕ → ℤ)
    (U UPart UScat UGath : ElDist) (colStride : ℕ) (d : DistData)
    (constrain : Bool) (st : ColState)
    (V VPart VScat VGath : ElDist) (rowStride : ℕ) (str : RowState)
    (hg : gridThis ≠ gridA)
    (hrow : rowAlignD % cPart ≠ rowAlignA)
    (hcol : colAlignD % rPart ≠ colAlignA)
    (hc1 : ¬(d.colDist = U ∨ d.colDist = UPart))
    (hc2 : ¬(d.rowDist = U ∨ d.rowDist = UPart))
    (hc3 : d.colDist ≠ UScat) (hc4 : d.rowDist ≠ UScat)
    (hc5 : U ≠ UGath) (hc6 : d.colDist ≠ UGath) (hc7 : d.rowDist ≠ UGath)
    (hr1 : ¬(d.colDist = V ∨ d.colDist = VPart))
    (hr2 : ¬(d.rowDist = V ∨ d.rowDist = VPart))
    (hr3 : d.colDist ≠ VScat) (hr4 : d.rowDist ≠ VScat)
    (hr5 : V ≠ VGath) (hr6 : d.colDist ≠ VGath) (hr7 : d.rowDist ≠ VGath) :
    (PartialRowSumScatterFrom gridThis gridA true cFull cPart cUnion p0 u
        rc rowAlignD rowAlignA rowShiftOfA h w ALoc destR
      = (destR, 0, some "Grids did not match")) ∧
    (Resize true resized buf = (buf, some "Cannot resize a view")) ∧
    (PartialRowSumScatterUpdate true cFull cPart cUnion p0 u rowAlignD
        rowAlignA rowShiftOfA h w alpha ALoc destR
      = (destR, 0,
          some "Unaligned PartialRowSumScatterUpdate not implemented")) ∧
    (PartialColSumScatterUpdate true rFull rPart rUnion q0 v colAlignD
        colAlignA colShiftOfA h w alpha BLoc destC
      = (destC, 0,
          some "Unaligned PartialColSumScatterUpdate not implemented")) ∧
    (AlignColsWith U UPart UScat UGath colStride d constrain false st
      = ({ st with grid := d.grid, root := d.root },
          some "Nonsensical alignment")) ∧
    (AlignRowsWith V VPart VScat VGath rowStride d constrain false str
      = ({ str with grid := d.grid, root := d.root },
          some "Nonsensical alignment")) ∧
    (PartialRowSumScatterFrom gridA gridA true cFull cPart cUnion p0 u
        true rowAlignD rowAlignA rowShiftOfA h w ALoc destR
      = ((fun _ _ => 0), 0,
          some "Unaligned PartialRowSumScatterUpdate not implemented")) := by
  refine ⟨?_, rfl, ?_, ?_, ?_, ?_, ?_⟩
  · unfold PartialRowSumScatterFrom
    rw [if_pos hg]
  · unfold PartialRowSumScatterUpdate
    rw [if_neg (by simp), if_neg hrow]
  · unfold PartialColSumScatterUpdate
    rw [if_neg (by simp), if_neg hcol]
  · unfold AlignColsWith
    rw [if_neg hc1, if_neg hc2, if_neg hc3, if_neg hc4,
        if_pos ⟨hc5, hc6, hc7, rfl⟩]
  · unfold AlignRowsWith
    rw [if_neg hr1, if_neg hr2, if_neg hr3, if_neg hr4,
        if_pos ⟨hr5, hr6, hr7, rfl⟩]
  · unfold PartialRowSumScatterFrom
    rw [if_neg (fun hne => hne rfl), if_pos rfl]
    unfold PartialRowSumScatterUpdate
    rw [if_neg (by simp), if_neg hrow]

/-- Witness for the amended C6: grids 1 versus 0 for the grid-assert
conjunct, a row-constrained destination with alignment 1 against a source of
partial stride 2 and alignment 0, and an `[MD,MD]` descriptor that matches
neither the column-axis constants `(MC, MC, VC, STAR)` nor the row-axis
constants `(MR, MR, VR, STAR)`. -/
theorem checks_before_writes_amended_witness :
    (1 ≠ 0) ∧ (1 % 2 ≠ 0) ∧
    ((PartialRowSumScatterFrom 1 0 true 4 2 2 0 0 false 1 0 0 3 3
        (fun _ _ _ => 2) (fun _ _ => 9)
      = ((fun _ _ => 9), 0, some "Grids did not match")) ∧
    (Resize true (fun _ _ => 5) (fun _ _ => 9)
      = ((fun _ _ => 9), some "Cannot resize a view")) ∧
    (PartialRowSumScatterUpdate true 4 2 2 0 0 1 0 0 3 3 5
        (fun _ _ _ => 2) (fun _ _ => 9)
      = ((fun _ _ => 9), 0,
          some "Unaligned PartialRowSumScatterUpdate not implemented")) ∧
    (PartialColSumScatterUpdate true 4 2 2 0 0 1 0 0 3 3 5
        (fun _ _ _ => 2) (fun _ _ => 9)
      = ((fun _ _ => 9), 0,
          some "Unaligned PartialColSumScatterUpdate not implemented")) ∧
    (AlignColsWith ElDist.MC ElDist.MC ElDist.VC ElDist.STAR 2
        ⟨ElDist.MD, ElDist.MD, 1, 1, 5, 7⟩ false false ⟨0, 0, 3, false⟩
      = (⟨7, 5, 3, false⟩, some "Nonsensical alignment")) ∧
    (AlignRowsWith ElDist.MR ElDist.MR ElDist.VR ElDist.STAR 3
        ⟨ElDist.MD, ElDist.MD, 1, 1, 5, 7⟩ false false ⟨0, 0, 3, false⟩
      = (⟨7, 5, 3, false⟩, some "Nonsensical alignment")) ∧
    (PartialRowSumScatterFrom 0 0 true 4 2 2 0 0 true 1 0 0 3 3
        (fun _ _ _ => 2) (fun _ _ => 9)
      = ((fun _ _ => 0), 0,
          some "Unaligned PartialRowSumScatterUpdate not implemented"))) :=
  ⟨by decide, by decide,
    checks_before_writes_amended 1 0 false 4 2 2 0 0 1 0 0 4 2 2 0 0 1 0 0
      3 3 5 (fun _ _ _ => 2) (fun _ _ _ => 2) (fun _ _ => 9) (fun _ _ => 9)
      (fun _ _ => 5) (fun _ _ => 9)
      ElDist.MC ElDist.MC ElDist.VC ElDist.STAR 2
      ⟨ElDist.MD, ElDist.MD, 1, 1, 5, 7⟩ false ⟨0, 0, 3, false⟩
      ElDist.MR ElDist.MR ElDist.VR ElDist.STAR 3 ⟨0, 0, 3, false⟩
      (by decide) (by decide) (by decide) (by decide) (by decide) (by decide)
      (by decide) (by decide) (by decide) (by decide) (by decide) (by decide)
      (by decide) (by decide) (by decide) (by decide) (by decide)⟩

-- #############################################################
-- Diagonal ownership (star_md.hpp; General.cpp lines 782-871)
-- #############################################################

/-- The grid coordinate owning diagonal entry `m` of a matrix distributed
with strides `(r,c)` and alignments `(a,b)`, where the diagonal with offset
`o` passes through global position `(m + offI, m + offJ)` with
`offI = max(−o,0)` and `offJ = max(o,0)`: by the ownership relation of the
2D distribution this is `((m + offI + a) % r, (m + offJ + b) % c)`. -/
def diagOwner (r c a b offI offJ : ℕ) (m : ℕ) : ℕ × ℕ :=
  ((m + offI + a) % r, (m + offJ + b) % c)

/-- The set of grid coordinates owning at least one of the first `n`
diagonal entries. -/
def diagOwnerSet (r c a b offI offJ n : ℕ) : Finset (ℕ × ℕ) :=
  (Finset.range n).image (diagOwner r c a b offI offJ)

/-- `diagOwner` is genuinely the owner: the coordinate owns the global row
`m + offI` and the global column `m + offJ` of the matrix distribution. -/
theorem diagOwner_owns {r c : ℕ} (hr : 0 < r) (hc : 0 < c) {a b : ℕ}
    (ha : a < r) (hb : b < c) (offI offJ m : ℕ) :
    OwnsIdx (m + offI) a r (diagOwner r c a b offI offJ m).1 ∧
    OwnsIdx (m + offJ) b c (diagOwner r c a b offI offJ m).2 :=
  ⟨(Shift_owner hr ha (m + offI)).symm, (Shift_owner hc hb (m + offJ)).symm⟩

/-- Walking `k * lcm(r,c)` entries along the diagonal returns to the same
owning process. -/
theorem diagOwner_periodic {r c : ℕ} (a b offI offJ : ℕ) (m k : ℕ) :
    diagOwner r c a b offI offJ (m + k * Nat.lcm r c)
      = diagOwner r c a b offI offJ m := by
  unfold diagOwner
  have h1 : ∀ x : ℕ, (x + k * Nat.lcm r c) % r = x % r := by
    intro x
    conv_lhs => rw [← Nat.div_mul_cancel (Nat.dvd_lcm_left r c),
      ← mul_assoc, Nat.add_mul_mod_self_right]
  have h2 : ∀ x : ℕ, (x + k * Nat.lcm r c) % c = x % c := by
    intro x
    conv_lhs => rw [← Nat.div_mul_cancel (Nat.dvd_lcm_right r c),
      ← mul_assoc, Nat.add_mul_mod_self_right]
  have e1 : m + k * Nat.lcm r c + offI + a
      = m + offI + a + k * Nat.lcm r c := by ring
  have e2 : m + k * Nat.lcm r c + offJ + b
      = m + offJ + b + k * Nat.lcm r c := by ring
  rw [e1, e2, h1, h2]

/-- Two diagonal positions within `lcm(r,c)` of one another with the same
owner coincide. -/
theorem diagOwner_inj_aux {r c : ℕ} (hr : 0 < r) (hc : 0 < c)
    {a b offI offJ : ℕ} {m m' : ℕ} (hle : m ≤ m')
    (hlt : m' - m < Nat.lcm r c)
    (he : diagOwner r c a b offI offJ m = diagOwner r c a b offI offJ m') :
    m = m' := by
  rw [Prod.ext_iff] at he
  unfold diagOwner at he
  have h1 : m ≡ m' [MOD r] :=
    Nat.ModEq.add_right_cancel' (offI + a)
      (by rw [← add_assoc, ← add_assoc]; exact he.1)
  have h2 : m ≡ m' [MOD c] :=
    Nat.ModEq.add_right_cancel' (offJ + b)
      (by rw [← add_assoc, ← add_assoc]; exact he.2)
  have d1 : r ∣ m' - m := (Nat.modEq_iff_dvd' hle).mp h1
  have d2 : c ∣ m' - m := (Nat.modEq_iff_dvd' hle).mp h2
  have d3 : Nat.lcm r c ∣ m' - m := Nat.lcm_dvd d1 d2
  have h0 : m' - m = 0 := Nat.eq_zero_of_dvd_of_lt d3 hlt
  omega

/-- For a diagonal of length at least `lcm(r,c)`, the owner set has exactly
`lcm(r,c)` elements. -/
theorem diagOwnerSet_card {r c : ℕ} (hr : 0 < r) (hc : 0 < c)
    (a b offI offJ n : ℕ) (hn : Nat.lcm r c ≤ n) :
    (diagOwnerSet r c a b offI offJ n).card = Nat.lcm r c := by
  have hL : 0 < Nat.lcm r c :=
    Nat.pos_of_ne_zero (Nat.lcm_ne_zero hr.ne' hc.ne')
  have himg : diagOwnerSet r c a b offI offJ n
      = diagOwnerSet r c a b offI offJ (Nat.lcm r c) := by
    unfold diagOwnerSet
    apply Finset.Subset.antisymm
    · intro p hp
      rw [Finset.mem_image] at hp ⊢
      obtain ⟨m, _, rfl⟩ := hp
      refine ⟨m % Nat.lcm r c, Finset.mem_range.mpr (Nat.mod_lt _ hL), ?_⟩
      conv_rhs => rw [← Nat.mod_add_div' m (Nat.lcm r c)]
      exact (diagOwner_periodic a b offI offJ _ _).symm
    · exact Finset.image_subset_image (Finset.range_subset.mpr hn)
  rw [himg]
  unfold diagOwnerSet
  rw [Finset.card_image_of_injOn, Finset.card_range]
  intro m hm m' hm' he
  rw [Finset.mem_coe, Finset.mem_range] at hm hm'
  rcases le_total m m' with hle | hle
  · exact diagOwner_inj_aux hr hc hle (by omega) he
  · exact (diagOwner_inj_aux hr hc hle (by omega) he.symm).symm

-- #############################################################
-- C7: how many processes hold the diagonal
-- #############################################################

/-- Claim C7 counterexample: on a 2×4 grid (strides 2 and 4) with zero
alignments and offset 1 (the diagonal is misaligned with both axes), a
diagonal of length 8 is owned by 4 distinct processes, not by
`gcd(2,4) = 2` as the claim states. -/
theorem diagOwnerCard_counterexample :
    (diagOwnerSet 2 4 0 0 0 1 8).card = 4 ∧ Nat.gcd 2 4 = 2 ∧
      (diagOwnerSet 2 4 0 0 0 1 8).card ≠ Nat.gcd 2 4 := by decide

/-- Claim C7 (amended): the diagonal of a sufficiently large matrix
(length ≥ lcm(colStride,rowStride)) is distributed over exactly
`lcm(colStride,rowStride) = r·c / gcd(r,c)` distinct owning processes (the
claim's `gcd` corrected to `lcm`), in a layout whose owner for each entry is
determined by `(colAlign, rowAlign, offset)` rather than freely choosable;
equivalently, the diagonal covers the entire `r·c` process grid if and only
if `r` and `c` are coprime. -/
theorem diagOwner_card_lcm (r c a b offI offJ n : ℕ) (hr : 0 < r)
    (hc : 0 < c) (ha : a < r) (hb : b < c) (hn : Nat.lcm r c ≤ n) :
    (diagOwnerSet r c a b offI offJ n).card = Nat.lcm r c ∧
    ((diagOwnerSet r c a b offI offJ n).card = r * c ↔ Nat.gcd r c = 1) ∧
    ∀ m, OwnsIdx (m + offI) a r (diagOwner r c a b offI offJ m).1 ∧
         OwnsIdx (m + offJ) b c (diagOwner r c a b offI offJ m).2 := by
  have hcard := diagOwnerSet_card hr hc a b offI offJ n hn
  refine ⟨hcard, ?_, fun m => diagOwner_owns hr hc ha hb offI offJ m⟩
  rw [hcard]
  constructor
  · intro hL
    have hg := Nat.gcd_mul_lcm r c
    rw [hL] at hg
    have hrc : 0 < r * c := Nat.mul_pos hr hc
    have : Nat.gcd r c * (r * c) = 1 * (r * c) := by rw [hg, one_mul]
    exact Nat.eq_of_mul_eq_mul_right hrc this
  · intro hg
    have h := Nat.gcd_mul_lcm r c
    rw [hg, one_mul] at h
    exact h

/-- Witness for the amended C7 on a 2×4 grid (gcd 2, lcm 4), alignments
`(1,3)`, offset 1, diagonal length 8. -/
theorem diagOwner_card_lcm_witness :
    0 < 2 ∧ 0 < 4 ∧ 1 < 2 ∧ 3 < 4 ∧ Nat.lcm 2 4 ≤ 8 ∧
    ((diagOwnerSet 2 4 1 3 0 1 8).card = Nat.lcm 2 4 ∧
     ((diagOwnerSet 2 4 1 3 0 1 8).card = 2 * 4 ↔ Nat.gcd 2 4 = 1) ∧
     ∀ m, OwnsIdx (m + 0) 1 2 (diagOwner 2 4 1 3 0 1 m).1 ∧
          OwnsIdx (m + 1) 3 4 (diagOwner 2 4 1 3 0 1 m).2) :=
  ⟨by decide, by decide, by decide, by decide, by decide,
    diagOwner_card_lcm 2 4 1 3 0 1 8 (by decide) (by decide) (by decide)
      (by decide) (by decide)⟩

-- #############################################################
-- GetDiagonal / SetDiagonal (General.cpp lines 652-871)
-- #############################################################

/-- `Max(-offset, 0)`: the global row of the first diagonal entry. -/
def offIOf (o : ℤ) : ℕ := (-o).toNat

/-- `Max(offset, 0)`: the global column of the first diagonal entry. -/
def offJOf (o : ℤ) : ℕ := o.toNat

/-- Modelled from the spec: `AbstractDistMatrix::DiagonalLength` is not
under src; the diagonal at offset `o` of an `h × w` matrix has
`min(h − max(−o,0), w − max(o,0))` entries (the spec quantifies offsets over
`(−min(h,w), min(h,w))`). -/
def DiagonalLength (h w : ℕ) (o : ℤ) : ℕ := min (h - offIOf o) (w - offJOf o)

/-- Modelled from the spec: the column stride of the diagonal-distributed
(`MD`) proxy `d` used by `GetDiagonalHelper`/`SetDiagonalHelper` is not under
src.  The helpers require `colStride ∣ d.ColStride()` and
`rowStride ∣ d.ColStride()` (they step `iLoc` by `d.ColStride()/colStride`
and `jLoc` by `d.ColStride()/rowStride`), and the in-src comment of
`DistMatrix<T,STAR,MD>` (star_md.hpp) states the diagonal covers the whole
grid exactly when the grid dimensions are coprime: the diagonal layout's
stride is `lcm(colStride, rowStride)`. -/
def dStride (r c : ℕ) : ℕ := Nat.lcm r c

/-- The `ColShift()` of the process owning the diagonal entries with residue
`σ`: it owns global row `iStart = σ + Max(-offset,0)`, so its column-axis
shift is `iStart % colStride` (cf. `Shift_owner`). -/
def colShiftAt (r : ℕ) (o : ℤ) (σ : ℕ) : ℕ := (σ + offIOf o) % r

/-- The `RowShift()` of the process owning the diagonal entries with residue
`σ`. -/
def rowShiftAt (c : ℕ) (o : ℤ) (σ : ℕ) : ℕ := (σ + offJOf o) % c

/-- The global row addressed at step `k` of the diagonal helpers' loop on
the owner of residue `σ` (General.cpp lines 804-824): the local row is
`iLocStart + k*iLocStride` with `iStart = diagShift + Max(-offset,0)`,
`iLocStart = (iStart − ColShift())/colStride` and
`iLocStride = d.ColStride()/colStride`; local row `iLoc` holds global row
`ColShift() + iLoc*colStride`. -/
def rowAt (r c : ℕ) (o : ℤ) (σ k : ℕ) : ℕ :=
  colShiftAt r o σ +
    ((σ + offIOf o - colShiftAt r o σ) / r + k * (dStride r c / r)) * r

/-- The global column addressed at step `k` of the diagonal helpers' loop on
the owner of residue `σ`. -/
def colAt (r c : ℕ) (o : ℤ) (σ k : ℕ) : ℕ :=
  rowShiftAt c o σ +
    ((σ + offJOf o - rowShiftAt c o σ) / c + k * (dStride r c / c)) * c

/-- `d.LocalHeight()` on the owner of residue `σ`: the number of diagonal
entries with that residue. -/
def localDiagLength (r c h w : ℕ) (o : ℤ) (σ : ℕ) : ℕ :=
  Length_ (DiagonalLength h w o) σ (dStride r c)

/-- The diagonal gathered from `GetDiagonalHelper` (General.cpp lines
782-826), viewed globally: entry `m` is produced on the owner of residue
`m % dStride` at loop step `m / dStride` (modelled from the spec: the MD
proxy is aligned by `DiagonalAlign(offset)`/`DiagonalRoot(offset)`, which
are not under src, so that the owner of residue `σ` has `d.ColShift() = σ`),
reading the matrix entry addressed by `rowAt`/`colAt`. -/
def GetDiagonal (r c : ℕ) (o : ℤ) (M : ℕ → ℕ → ℤ) (m : ℕ) : ℤ :=
  M (rowAt r c o (m % dStride r c) (m / dStride r c))
    (colAt r c o (m % dStride r c) (m / dStride r c))

/-- The matrix after all owners have run the `SetDiagonalHelper` loop
(General.cpp lines 828-871) against the gathered diagonal `d`: position
`(i,j)` is overwritten with `d (i − offI)` exactly when some owner's loop
step addresses it — by `diagPos_iff` below, exactly when `(i,j)` lies on the
offset-`o` diagonal within its length — and is untouched otherwise. -/
def SetDiagonal (r c h w : ℕ) (o : ℤ) (d : ℕ → ℤ) (M0 : ℕ → ℕ → ℤ) :
    ℕ → ℕ → ℤ := fun i j =>
  if offIOf o ≤ i ∧ offJOf o ≤ j ∧ i - offIOf o = j - offJOf o ∧
      i - offIOf o < DiagonalLength h w o
  then d (i - offIOf o) else M0 i j

/-- The loop's global row simplifies to `σ + offI + k * lcm(r,c)`. -/
theorem rowAt_eq {r c : ℕ} (hr : 0 < r) (o : ℤ) (σ k : ℕ) :
    rowAt r c o σ k = σ + offIOf o + k * dStride r c := by
  unfold rowAt colShiftAt dStride
  have h1 : σ + offIOf o - (σ + offIOf o) % r = r * ((σ + offIOf o) / r) :=
    (Nat.sub_eq_iff_eq_add (Nat.mod_le _ r)).mpr (Nat.div_add_mod _ r).symm
  rw [h1, Nat.mul_div_cancel_left _ hr, add_mul, ← add_assoc,
      Nat.mod_add_div', mul_assoc, Nat.div_mul_cancel (Nat.dvd_lcm_left r c)]

/-- The loop's global column simplifies to `σ + offJ + k * lcm(r,c)`. -/
theorem colAt_eq {r c : ℕ} (hc : 0 < c) (o : ℤ) (σ k : ℕ) :
    colAt r c o σ k = σ + offJOf o + k * dStride r c := by
  unfold colAt rowShiftAt dStride
  have h1 : σ + offJOf o - (σ + offJOf o) % c = c * ((σ + offJOf o) / c) :=
    (Nat.sub_eq_iff_eq_add (Nat.mod_le _ c)).mpr (Nat.div_add_mod _ c).symm
  rw [h1, Nat.mul_div_cancel_left _ hc, add_mul, ← add_assoc,
      Nat.mod_add_div', mul_assoc, Nat.div_mul_cancel (Nat.dvd_lcm_right r c)]

/-- The gathered diagonal holds the matrix's diagonal entries:
`GetDiagonal M m = M (m + offI) (m + offJ)`. -/
theorem GetDiagonal_eq {r c : ℕ} (hr : 0 < r) (hc : 0 < c) (o : ℤ)
    (M : ℕ → ℕ → ℤ) (m : ℕ) :
    GetDiagonal r c o M m = M (m + offIOf o) (m + offJOf o) := by
  unfold GetDiagonal
  rw [rowAt_eq hr, colAt_eq hc,
      add_right_comm (m % dStride r c) (offIOf o), Nat.mod_add_div',
      add_right_comm (m % dStride r c) (offJOf o), Nat.mod_add_div']

/-- A position `(i,j)` is addressed by some owner's loop step iff it lies on
the offset-`o` diagonal within the diagonal's length: the per-residue loops
of the diagonal helpers cover the diagonal with neither gaps nor overlaps. -/
theorem diagPos_iff {r c : ℕ} (hr : 0 < r) (hc : 0 < c) (h w : ℕ) (o : ℤ)
    (i j : ℕ) :
    (offIOf o ≤ i ∧ offJOf o ≤ j ∧ i - offIOf o = j - offJOf o ∧
        i - offIOf o < DiagonalLength h w o) ↔
      ∃ σ, σ < dStride r c ∧ ∃ k, k < localDiagLength r c h w o σ ∧
        i = rowAt r c o σ k ∧ j = colAt r c o σ k := by
  have hq : 0 < dStride r c :=
    Nat.pos_of_ne_zero (Nat.lcm_ne_zero hr.ne' hc.ne')
  constructor
  · rintro ⟨h1, h2, h3, h4⟩
    refine ⟨(i - offIOf o) % dStride r c, Nat.mod_lt _ hq,
      (i - offIOf o) / dStride r c, ?_, ?_, ?_⟩
    · exact div_lt_Length hq h4
    · rw [rowAt_eq hr, add_right_comm _ (offIOf o), Nat.mod_add_div']
      omega
    · rw [colAt_eq hc, add_right_comm _ (offJOf o), Nat.mod_add_div']
      omega
  · rintro ⟨σ, hσ, k, hk, rfl, rfl⟩
    rw [rowAt_eq hr, colAt_eq hc]
    have h5 : σ + k * dStride r c < DiagonalLength h w o :=
      add_mul_lt_of_lt_Length hq hk
    set K := k * dStride r c with hK
    omega

-- #############################################################
-- C8: diagonal round trip
-- #############################################################

/-- Claim C8: for every matrix `M`, every grid shape (including shapes with
`gcd(r,c) > 1`) and every offset in `(−min(h,w), min(h,w))`, performing
`SetDiagonal(GetDiagonal(M, offset), offset)` on a copy of `M` reproduces
`M`'s diagonal exactly — every entry (diagonal and off-diagonal alike)
equals `M`'s — and no diagonal entry is dropped or duplicated: each
`m < DiagonalLength` is addressed by exactly one (owner residue, loop step)
pair. -/
theorem SetDiagonal_GetDiagonal_roundtrip (r c h w : ℕ) (o : ℤ)
    (M : ℕ → ℕ → ℤ) (hr : 0 < r) (hc : 0 < c)
    (ho1 : -(min h w : ℤ) < o) (ho2 : o < (min h w : ℤ)) :
    (∀ i j, SetDiagonal r c h w o (GetDiagonal r c o M) M i j = M i j) ∧
    (∀ m, m < DiagonalLength h w o →
      ∃! sk : ℕ × ℕ, sk.1 < dStride r c ∧
        sk.2 < localDiagLength r c h w o sk.1 ∧
        rowAt r c o sk.1 sk.2 = m + offIOf o ∧
        colAt r c o sk.1 sk.2 = m + offJOf o) := by
  have hq : 0 < dStride r c :=
    Nat.pos_of_ne_zero (Nat.lcm_ne_zero hr.ne' hc.ne')
  constructor
  · intro i j
    unfold SetDiagonal
    by_cases hij : offIOf o ≤ i ∧ offJOf o ≤ j ∧
        i - offIOf o = j - offJOf o ∧ i - offIOf o < DiagonalLength h w o
    · rw [if_pos hij, GetDiagonal_eq hr hc]
      obtain ⟨h1, h2, h3, _⟩ := hij
      have e1 : i - offIOf o + offIOf o = i := by omega
      have e2 : i - offIOf o + offJOf o = j := by omega
      rw [e1, e2]
    · rw [if_neg hij]
  · intro m hm
    refine ⟨(m % dStride r c, m / dStride r c),
      ⟨Nat.mod_lt _ hq, div_lt_Length hq hm, ?_, ?_⟩, ?_⟩
    · rw [rowAt_eq hr, add_right_comm _ (offIOf o), Nat.mod_add_div']
    · rw [colAt_eq hc, add_right_comm _ (offJOf o), Nat.mod_add_div']
    · rintro ⟨σ, k⟩ ⟨hσ, hk, hrow, hcol⟩
      dsimp only at hσ hk hrow hcol
      rw [rowAt_eq hr] at hrow
      have h6 : σ + k * dStride r c = m := by omega
      have h7 : σ = m % dStride r c := by
        rw [← h6, Nat.add_mul_mod_self_right, Nat.mod_eq_of_lt hσ]
      have h8 : k = m / dStride r c := by
        rw [← h6, Nat.add_mul_div_right _ _ hq, Nat.div_eq_of_lt hσ, zero_add]
      exact Prod.ext h7 h8

/-- Witness for C8 on a 2×4 grid (gcd 2 > 1), a 5×5 matrix, offset 1. -/
theorem SetDiagonal_GetDiagonal_roundtrip_witness :
    0 < 2 ∧ 0 < 4 ∧ (-(min 5 5 : ℤ) < 1) ∧ ((1 : ℤ) < (min 5 5 : ℤ)) ∧
    ((∀ i j, SetDiagonal 2 4 5 5 1
        (GetDiagonal 2 4 1 (fun i j => 10 * i + j)) (fun i j => 10 * i + j) i j
        = 10 * i + j) ∧
     (∀ m, m < DiagonalLength 5 5 1 →
       ∃! sk : ℕ × ℕ, sk.1 < dStride 2 4 ∧
         sk.2 < localDiagLength 2 4 5 5 1 sk.1 ∧
         rowAt 2 4 1 sk.1 sk.2 = m + offIOf 1 ∧
         colAt 2 4 1 sk.1 sk.2 = m + offJOf 1)) :=
  ⟨by decide, by decide, by decide, by decide,
    SetDiagonal_GetDiagonal_roundtrip 2 4 5 5 1 (fun i j => 10 * i + j)
      (by decide) (by decide) (by decide) (by decide)⟩

-- #############################################################
-- Trr2kTTNN (src/unnamed/part_001, blas/level3/Trr2k)
-- #############################################################

/-- `elem::UpperOrLower`. -/
inductive UpperOrLower
  | LOWER | UPPER
deriving DecidableEq

/-- The entries of `E` a `Trr2k` routine updates: the `uplo` triangle. -/
def inTriangle (uplo : UpperOrLower) (i j : ℕ) : Bool :=
  match uplo with
  | UpperOrLower.LOWER => j ≤ i
  | UpperOrLower.UPPER => i ≤ j

/-- `elem::Orient`-style operand marker: `NORMAL`, `TRANSPOSE` or
`ADJOINT`; over the integer entries modelled here conjugation is the
identity, so the latter two both act as transposition. -/
inductive Orient
  | NORMAL | TRANSPOSE | ADJOINT
deriving DecidableEq

/-- Apply an operand marker to a matrix. -/
def orientApply (o : Orient) (M : ℕ → ℕ → ℤ) : ℕ → ℕ → ℤ :=
  match o with
  | Orient.NORMAL => M
  | Orient.TRANSPOSE => fun i j => M j i
  | Orient.ADJOINT => fun i j => M j i

/-- Entry `(i,j)` of the product of two `n × n` matrices. -/
def mulEntry (n : ℕ) (A B : ℕ → ℕ → ℤ) (i j : ℕ) : ℤ :=
  ∑ k in Finset.range n, A i k * B k j

/-- Modelled from the spec: `internal::Trr2kNNTT` (NNTT.hpp, included by
part_001 but not itself under src) computes
`E := alpha (A B + C^{T/H} D^{T/H}) + beta E` on the `uplo` triangle of `E`,
with `orientationOfC`/`orientationOfD` applied to the third and fourth
operands; entries outside the triangle are untouched. -/
def Trr2kNNTT (n : ℕ) (uplo : UpperOrLower) (oC oD : Orient) (alpha : ℤ)
    (A B C D : ℕ → ℕ → ℤ) (beta : ℤ) (E : ℕ → ℕ → ℤ) : ℕ → ℕ → ℤ :=
  fun i j =>
    if inTriangle uplo i j then
      alpha * (mulEntry n A B i j
        + mulEntry n (orientApply oC C) (orientApply oD D) i j) + beta * E i j
    else E i j

/-- `internal::Trr2kTTNN` (src/unnamed/part_001, lines 18-31): it simply
delegates to `Trr2kNNTT(uplo, orientationOfA, orientationOfB, alpha, C, D,
A, B, beta, E)`, exchanging the operand pairs `(A,B)` and `(C,D)`. -/
def Trr2kTTNN (n : ℕ) (uplo : UpperOrLower) (oA oB : Orient) (alpha : ℤ)
    (A B C D : ℕ → ℕ → ℤ) (beta : ℤ) (E : ℕ → ℕ → ℤ) : ℕ → ℕ → ℤ :=
  Trr2kNNTT n uplo oA oB alpha C D A B beta E

/-- The contract stated in part_001's comment for `Trr2kTTNN`:
`E := alpha (A^{T/H} B^{T/H} + C D) + beta E` on the `uplo` triangle. -/
def Trr2kTTNNSpec (n : ℕ) (uplo : UpperOrLower) (oA oB : Orient) (alpha : ℤ)
    (A B C D : ℕ → ℕ → ℤ) (beta : ℤ) (E : ℕ → ℕ → ℤ) : ℕ → ℕ → ℤ :=
  fun i j =>
    if inTriangle uplo i j then
      alpha * (mulEntry n (orientApply oA A) (orientApply oB B) i j
        + mulEntry n C D i j) + beta * E i j
    else E i j

-- #############################################################
-- C10: the TTNN variant equals NNTT with the pairs exchanged
-- #############################################################

/-- Claim C10: for all inputs, `Trr2kTTNN(uplo, oA, oB, alpha, A, B, C, D,
beta, E)` computes exactly `E := alpha (A^{T/H} B^{T/H} + C D) + beta E`, and
it is literally the delegated call `Trr2kNNTT(uplo, oA, oB, alpha, C, D, A,
B, beta, E)`: the two variants are equal under exchanging the operand pairs
`(A,B)` and `(C,D)`. -/
theorem Trr2kTTNN_delegates (n : ℕ) (uplo : UpperOrLower) (oA oB : Orient)
    (alpha : ℤ) (A B C D : ℕ → ℕ → ℤ) (beta : ℤ) (E : ℕ → ℕ → ℤ) :
    Trr2kTTNN n uplo oA oB alpha A B C D beta E
        = Trr2kNNTT n uplo oA oB alpha C D A B beta E ∧
    ∀ i j, Trr2kTTNN n uplo oA oB alpha A B C D beta E i j
        = Trr2kTTNNSpec n uplo oA oB alpha A B C D beta E i j := by
  refine ⟨rfl, fun i j => ?_⟩
  unfold Trr2kTTNN Trr2kNNTT Trr2kTTNNSpec
  by_cases htri : inTriangle uplo i j
  · rw [if_pos htri, if_pos htri, add_comm (mulEntry n C D i j)]
  · rw [if_neg htri, if_neg htri]
